import Mathlib

/-!
Verification of the flight-plan guidance and EFIS symbol generation pipeline
(Guidance Controller and EfisSymbols generator) against its natural-language
specification. The definitions below are shallow embeddings of the TypeScript
source: JavaScript numbers are modelled as rationals (or reals where
trigonometry is involved), JavaScript undefined-able fields as Option, the
mutable working arrays as Lean lists, and the per-tick control flow as
explicit state-passing functions.
-/

namespace Aircraft

/-- Navigation display mode enumeration, from the shared NavigationDisplay
module (EfisNdMode). -/
inductive EfisNdMode where
  | ROSE_ILS
  | ROSE_VOR
  | ROSE_NAV
  | ARC
  | PLAN
deriving DecidableEq, Repr

/-- Geographic coordinates (lat, long), as used by the symbol generator. -/
structure Coordinates where
  lat : ℚ
  long : ℚ
deriving DecidableEq, Repr

/-- A navigation display symbol (NdSymbol from the shared NavigationDisplay
module): identifier, label, optional location, bit flags, and the optional
merge-able fields used by upsertSymbol. Fields that can be undefined in the
TypeScript source are Options here. The type bitmask is a natural number. -/
structure NdSymbol where
  databaseId : String
  ident : String
  location : Option Coordinates
  type : Nat
  constraints : Option (List String)
  direction : Option ℚ
  length : Option ℚ
  radials : Option (List ℚ)
  radii : Option (List ℚ)
deriving DecidableEq, Repr

/-- JavaScript nullish-coalescing operator on possibly-undefined values:
a ?? b keeps a when it is defined, otherwise yields b. -/
def jsNullish {α : Type} (a b : Option α) : Option α :=
  match a with
  | some x => some x
  | none => b

/-- Merge of the radial (or radius) lists performed by upsertSymbol: when the
old symbol has a list, the new symbol's list (if any) is extended with the old
one (symbol.radials.push(...oldSymbol.radials)), otherwise the old list is
adopted; when the old symbol has none, the new symbol's field is kept. -/
def mergeRadialList (new old : Option (List ℚ)) : Option (List ℚ) :=
  match old with
  | some o =>
    match new with
    | some n => some (n ++ o)
    | none => some o
  | none => new

/-- Field-by-field merge of a freshly inserted symbol with the existing symbol
of the same databaseId, exactly as in the body of upsertSymbol (part_001 lines
229-247): scalar fields use nullish coalescing with the new value winning,
the type bitmask is bitwise-ORed, radial and radius lists are concatenated. -/
def mergeSymbols (symbol old : NdSymbol) : NdSymbol :=
  { symbol with
    constraints := jsNullish symbol.constraints old.constraints
    direction := jsNullish symbol.direction old.direction
    length := jsNullish symbol.length old.length
    location := jsNullish symbol.location old.location
    type := symbol.type ||| old.type
    radials := mergeRadialList symbol.radials old.radials
    radii := mergeRadialList symbol.radii old.radii }

/-- Removal of the first list entry carrying the given databaseId, returning
that entry and the remaining list; models symbols.findIndex followed by
symbols.splice(symbolIdx, 1) in upsertSymbol. -/
def removeFirst : List NdSymbol → String → Option (NdSymbol × List NdSymbol)
  | [], _ => none
  | x :: xs, dbid =>
    if x.databaseId = dbid then some (x, xs)
    else (removeFirst xs dbid).map (fun p => (p.1, x :: p.2))

/-- The upsertSymbol operation of the EFIS symbols generator (part_001 lines
222-250): if a symbol with the same databaseId already exists it is removed,
merged into the new symbol, and the merged symbol is appended at the end of
the working list; otherwise the new symbol is appended as-is. -/
def upsertSymbol (symbols : List NdSymbol) (symbol : NdSymbol) : List NdSymbol :=
  match removeFirst symbols symbol.databaseId with
  | none => symbols ++ [symbol]
  | some (old, rest) => rest ++ [mergeSymbols symbol old]

/-- Transport words available downstream for one side's symbol list. -/
def transportWords : ℚ := 640

/-- Words consumed per symbol (part_001 line 445). -/
def wordsPerSymbol : ℚ := 6

/-- The symbol budget as the source computes it: 640 / 6, which in JavaScript
floating-point division is the non-integer 106.66..., not 106. -/
def maxSymbols : ℚ := transportWords / wordsPerSymbol

/-- JavaScript ToIntegerOrInfinity on a finite number: truncation toward
zero. Applied by Array.prototype.splice to its deleteCount argument. -/
def jsTrunc (q : ℚ) : Int :=
  if q < 0 then -(Int.floor (-q)) else Int.floor q

/-- The truncation and data-limit flagging step at the end of a side's
symbol pass (part_001 lines 445-452): when symbols.length exceeds 640/6 the
head of the list is spliced off by symbols.length - 640/6 entries (the splice
deleteCount being truncated toward zero by JavaScript) and the side's
dataLimitReached flag is set; otherwise the list is kept whole and the flag
cleared. Returns the emitted list and the flag value written. -/
def truncateSymbols (symbols : List NdSymbol) : List NdSymbol × Bool :=
  if (symbols.length : ℚ) > maxSymbols then
    (symbols.drop (jsTrunc ((symbols.length : ℚ) - maxSymbols)).toNat, true)
  else
    (symbols, false)

/-- The edit area computation (part_001 lines 695-751): a triple of
ahead-distance, behind-distance, beside-distance in nautical miles, a step
function of range within each display mode; modes other than ARC, ROSE_NAV
and PLAN fall to the default branch returning zeros. -/
def calculateEditArea (range : ℚ) (mode : EfisNdMode) : ℚ × ℚ × ℚ :=
  match mode with
  | .ARC =>
    if range ≤ 10 then (10.5, 3.5, 8.3)
    else if range ≤ 20 then (20.5, 7, 16.6)
    else if range ≤ 40 then (40.5, 14, 33.2)
    else if range ≤ 80 then (80.5, 28, 66.4)
    else if range ≤ 160 then (160.5, 56, 132.8)
    else (320.5, 112, 265.6)
  | .ROSE_NAV =>
    if range ≤ 10 then (7.6, 7.1, 7.1)
    else if range ≤ 20 then (14.7, 14.2, 14.2)
    else if range ≤ 40 then (28.9, 28.4, 28.4)
    else if range ≤ 80 then (57.3, 56.8, 56.8)
    else if range ≤ 160 then (114.1, 113.6, 113.6)
    else (227.7, 227.2, 227.2)
  | .PLAN =>
    if range ≤ 10 then (7, 7, 7)
    else if range ≤ 20 then (14, 14, 14)
    else if range ≤ 40 then (28, 28, 28)
    else if range ≤ 80 then (56, 56, 56)
    else if range ≤ 160 then (112, 112, 112)
    else (224, 224, 224)
  | _ => (0, 0, 0)

/-- Band selector for the specification's edit-area lookup table: the six
discrete range bands give six values. Modelled from the spec table header
(bands at 10, 20, 40, 80, 160, else). -/
def specBand (range : ℚ) (v10 v20 v40 v80 v160 velse : ℚ × ℚ × ℚ) : ℚ × ℚ × ℚ :=
  if range ≤ 10 then v10
  else if range ≤ 20 then v20
  else if range ≤ 40 then v40
  else if range ≤ 80 then v80
  else if range ≤ 160 then v160
  else velse

/-- The specification's literal edit-area lookup table (spec section 4.3),
written directly from the spec's three table rows. -/
def specEditArea (range : ℚ) (mode : EfisNdMode) : ℚ × ℚ × ℚ :=
  match mode with
  | .ARC =>
    specBand range (10.5, 3.5, 8.3) (20.5, 7, 16.6) (40.5, 14, 33.2)
      (80.5, 28, 66.4) (160.5, 56, 132.8) (320.5, 112, 265.6)
  | .ROSE_NAV =>
    specBand range (7.6, 7.1, 7.1) (14.7, 14.2, 14.2) (28.9, 28.4, 28.4)
      (57.3, 56.8, 56.8) (114.1, 113.6, 113.6) (227.7, 227.2, 227.2)
  | .PLAN =>
    specBand range (7, 7, 7) (14, 14, 14) (28, 28, 28)
      (56, 56, 56) (112, 112, 112) (224, 224, 224)
  | _ => (0, 0, 0)

/-- Display side (captain / first officer). -/
inductive Side where
  | L
  | R
deriving DecidableEq, Repr

/-- Identity of the two EfisState record objects owned by the Guidance
Controller (its leftEfisState and rightEfisState fields). The mapping
efisStateForSide stores references to these records, so it is modelled as a
function from Side to a record identity, with a separate store giving each
record's current contents. -/
inductive EfisRecId where
  | leftRec
  | rightRec
deriving DecidableEq, Repr

/-- Per-side EFIS state record (EfisState from FmsState): display mode,
range, and the two saturation flags. -/
structure EfisState where
  mode : EfisNdMode
  range : ℚ
  dataLimitReached : Bool
  legsCulled : Bool
deriving DecidableEq, Repr

/-- Initial EfisState record contents written by GuidanceController.init
(part_000 lines 292-293) for both leftEfisState and rightEfisState. -/
def initialEfisState : EfisState :=
  { mode := .ARC, range := 10, dataLimitReached := false, legsCulled := false }

/-- Reference mapping efisStateForSide produced by GuidanceController.init:
first the object literal at lines 294-297 maps L to the left record and R to
the right record, then line 302 re-assigns L to the left record, and line 303
assigns R to the LEFT record as well, so after init both sides reference the
left record. -/
def initEfisStateForSide : Side → EfisRecId :=
  let m0 : Side → EfisRecId := fun s =>
    match s with
    | .L => .leftRec
    | .R => .rightRec
  let m1 : Side → EfisRecId := fun s =>
    match s with
    | .L => .leftRec
    | _ => m0 s
  fun s =>
    match s with
    | .R => EfisRecId.leftRec
    | _ => m1 s

/-- Per-side mapping that the specification intends: each side's own record,
the one updateEfisState refreshes for that side (updateEfisState is called
with leftEfisState for L and rightEfisState for R, part_000 lines 338-339).
Modelled from the spec: per-side EfisState records with L owning the left
record and R owning the right record. -/
def ownRecord : Side → EfisRecId := fun s =>
  match s with
  | .L => .leftRec
  | .R => .rightRec

/-- The write of dataLimitReached performed by the EFIS symbols generator
(part_001 lines 449 and 451): it writes through the Guidance Controller's
efisStateForSide reference for the given side. -/
def setDataLimitReached (efisStateForSide : Side → EfisRecId)
    (store : EfisRecId → EfisState) (side : Side) (v : Bool) :
    EfisRecId → EfisState :=
  fun r =>
    if r = efisStateForSide side then { store r with dataLimitReached := v }
    else store r

/-- The map-partly-displayed computation (part_000 lines 223-235): for each
side the flag written to the simulator is the disjunction of dataLimitReached
and legsCulled of the record referenced by efisStateForSide for that side. -/
def updateMapPartlyDisplayed (efisStateForSide : Side → EfisRecId)
    (store : EfisRecId → EfisState) (side : Side) : Bool :=
  (store (efisStateForSide side)).dataLimitReached
    || (store (efisStateForSide side)).legsCulled

/-- Map-partly-displayed flag as the specification states it: computed from
that side's own EfisState record. Modelled from the spec: true if that side's
EfisState has either dataLimitReached or legsCulled set. -/
def mapPartlyDisplayedSpec (store : EfisRecId → EfisState) (side : Side) : Bool :=
  (store (ownRecord side)).dataLimitReached || (store (ownRecord side)).legsCulled

/-- The top-level stages of GuidanceController.update (part_000 lines
335-431), in execution order. -/
inductive Stage where
  | efisStateRefresh
  | vnavParams
  | geometryAndIdent
  | mrpState
  | mapPartlyDisplayed
  | lnavDriver
  | vnavDriver
  | pseudoWaypoints
  | efisVectors
  | taskQueue
deriving DecidableEq, Repr

/-- The tick's stage list together with whether each stage is wrapped in its
own try/catch in the source. The EfisState refresh (the two updateEfisState
calls at lines 338-339) is executed bare, outside any try block; every later
stage has its own try/catch with a stage-specific log prefix. -/
def tickStages : List (Stage × Bool) :=
  [ (.efisStateRefresh, false)
  , (.vnavParams, true)
  , (.geometryAndIdent, true)
  , (.mrpState, true)
  , (.mapPartlyDisplayed, true)
  , (.lnavDriver, true)
  , (.vnavDriver, true)
  , (.pseudoWaypoints, true)
  , (.efisVectors, true)
  , (.taskQueue, true) ]

/-- Runner for a list of stages: each stage executes (and is recorded in
order); if its body throws (per the throws oracle) and the stage is wrapped,
the exception is caught and the next stage runs; if it throws unwrapped, the
exception propagates out of the whole update. Returns the list of stages that
ran, or an error when an exception escaped. -/
def runStages (throws : Stage → Bool) :
    List (Stage × Bool) → List Stage → Except Unit (List Stage)
  | [], ran => .ok ran.reverse
  | (s, wrapped) :: rest, ran =>
    if throws s then
      if wrapped then runStages throws rest (s :: ran)
      else .error ()
    else runStages throws rest (s :: ran)

/-- Control-flow skeleton of GuidanceController.update: run the tick's stages
with the try/catch placement of the source. -/
def guidanceUpdate (throws : Stage → Bool) : Except Unit (List Stage) :=
  runStages throws tickStages []

/-- Environment of tryUpdateFlightPlanGeometry: the flight-plan provider
(existence check per index and the version counter of the plan or its
alternate) and the geometry factory operations. Geom is the abstract type of
geometry values; updateGeom models GeometryFactory.updateFromFlightPlan
followed by recomputeGeometry on an existing geometry, createGeom models
GeometryFactory.createFromFlightPlan followed by recomputeGeometry. -/
structure GeoEnv (Geom : Type) where
  has : Nat → Bool
  version : Nat → Bool → Nat
  updateGeom : Geom → Nat → Bool → Geom
  createGeom : Nat → Bool → Geom

/-- The Guidance Controller state touched by tryUpdateFlightPlanGeometry:
the last-seen-version map (keyed by flight-plan index alone) and the geometry
map (keyed by index plus 100 for alternates). -/
structure GCGeomState (Geom : Type) where
  lastFlightPlanVersions : Nat → Option Nat
  flightPlanGeometries : Nat → Option Geom

/-- Shallow embedding of GuidanceController.tryUpdateFlightPlanGeometry
(part_000 lines 433-466): compute the combined geometry key; if the plan slot
does not exist, evict any geometry under that key and return; otherwise if
not forced and the last-seen version for the flight-plan index equals the
plan's current version, return without any change; otherwise record the
current version and either update the existing geometry in place or create
and store a new one. -/
def tryUpdateFlightPlanGeometry {Geom : Type} (env : GeoEnv Geom)
    (flightPlanIndex : Nat) (alternate force : Bool)
    (st : GCGeomState Geom) : GCGeomState Geom :=
  let geometryPIndex := (if alternate then 100 else 0) + flightPlanIndex
  let lastVersion := st.lastFlightPlanVersions flightPlanIndex
  if env.has flightPlanIndex = false then
    { st with flightPlanGeometries := fun k =>
        if k = geometryPIndex then none else st.flightPlanGeometries k }
  else
    let currentVersion := env.version flightPlanIndex alternate
    if force = false ∧ lastVersion = some currentVersion then st
    else
      let st1 : GCGeomState Geom :=
        { st with lastFlightPlanVersions := fun k =>
            if k = flightPlanIndex then some currentVersion
            else st.lastFlightPlanVersions k }
      match st1.flightPlanGeometries geometryPIndex with
      | some geometry =>
        let g := env.updateGeom geometry flightPlanIndex alternate
        { st1 with flightPlanGeometries := fun k =>
            if k = geometryPIndex then some g else st1.flightPlanGeometries k }
      | none =>
        let g := env.createGeom flightPlanIndex alternate
        { st1 with flightPlanGeometries := fun k =>
            if k = geometryPIndex then some g else st1.flightPlanGeometries k }

/-- MathUtils.clampAngle: normalization of an angle in degrees into the
interval from 0 inclusive to 360 exclusive. -/
noncomputable def clampAngle (a : ℝ) : ℝ :=
  a - 360 * Int.floor (a / 360)

/-- The reference point of the edit-area test: the plan-centre termination in
PLAN mode, the aircraft position otherwise (part_001 lines 206-207). -/
def editAreaReference (mode : EfisNdMode) (termination ppos : Coordinates) :
    Coordinates :=
  if mode = EfisNdMode.PLAN then termination else ppos

/-- Bearing actually used by the edit-area test: relative to true heading and
clamped outside PLAN mode, raw otherwise (part_001 lines 207-210). -/
noncomputable def editAreaBearing (mode : EfisNdMode) (trueHeading bearing : ℝ) : ℝ :=
  if mode ≠ EfisNdMode.PLAN then clampAngle (bearing - trueHeading) else bearing

/-- Cross-track offset dx of the edit-area test (part_001 lines 211-212):
distance times the sine of the bearing converted to radians. -/
noncomputable def editAreaDx (dist bearing : ℝ) : ℝ :=
  dist * Real.sin (bearing * Real.pi / 180)

/-- Along-track offset dy of the edit-area test (part_001 lines 211-213):
distance times the cosine of the bearing converted to radians. -/
noncomputable def editAreaDy (dist bearing : ℝ) : ℝ :=
  dist * Real.cos (bearing * Real.pi / 180)

/-- The withinEditArea closure (part_001 lines 200-215), parametrized by the
external geodesic functions distanceTo and bearingTo of the msfs-geo library.
When the plan-centre termination is undefined the test returns true
unconditionally (the FIXME fallback); otherwise the candidate is converted to
a distance and bearing from the reference point, the bearing is normalized
relative to true heading outside PLAN mode, and the candidate is within the
area when the cross-track magnitude is below editBeside and the along-track
offset lies strictly between minus editBehind and editAhead. -/
noncomputable def withinEditArea
    (distanceTo bearingTo : Coordinates → Coordinates → ℝ)
    (mode : EfisNdMode) (termination : Option Coordinates) (ppos : Coordinates)
    (trueHeading : ℝ) (editAhead editBehind editBeside : ℝ)
    (ll : Coordinates) : Prop :=
  match termination with
  | none => True
  | some t =>
    let ref := editAreaReference mode t ppos
    let dist := distanceTo ref ll
    let bearing := editAreaBearing mode trueHeading (bearingTo ref ll)
    |editAreaDx dist bearing| < editBeside
      ∧ editAreaDy dist bearing > -editBehind
      ∧ editAreaDy dist bearing < editAhead

/-- Per-side loop skeleton of EfisSymbols.update (part_001 lines 165-461).
For each side in order: if the change-detection gate finds nothing changed
the side is skipped (continue, line 189); else if the side's mode is PLAN and
no plan-centre element was resolved, an empty symbol list is sent for that
side and the whole update returns (return, lines 192-195); otherwise the
side's computed symbol list is sent and the loop proceeds. The result is the
ordered list of (side, symbol list) transmissions of one invocation. -/
def efisSymbolsSidePass (skip : Side → Bool) (mode : Side → EfisNdMode)
    (planCentreResolved : Bool) (syms : Side → List NdSymbol) :
    List Side → List (Side × List NdSymbol)
  | [] => []
  | s :: rest =>
    if skip s then efisSymbolsSidePass skip mode planCentreResolved syms rest
    else if mode s = EfisNdMode.PLAN ∧ planCentreResolved = false then
      [(s, [])]
    else
      (s, syms s) :: efisSymbolsSidePass skip mode planCentreResolved syms rest

/-- One EfisSymbols.update invocation iterates the sides in the fixed order
L then R (EfisSymbols.sides, part_001 line 43). -/
def efisSymbolsUpdate (skip : Side → Bool) (mode : Side → EfisNdMode)
    (planCentreResolved : Bool) (syms : Side → List NdSymbol) :
    List (Side × List NdSymbol) :=
  efisSymbolsSidePass skip mode planCentreResolved syms [Side.L, Side.R]

/-- A blank symbol used for concrete instantiations. -/
def blankSymbol : NdSymbol :=
  { databaseId := "", ident := "", location := none, type := 0,
    constraints := none, direction := none, length := none,
    radials := none, radii := none }

/-- A symbol with identifier A and one radial, as an existing list entry. -/
def fixSymbolOld : NdSymbol := { blankSymbol with databaseId := "A", type := 1, radials := some [1] }

/-- A symbol with identifier A and one radial, as the inserted symbol. -/
def fixSymbolNew : NdSymbol := { blankSymbol with databaseId := "A", type := 2, radials := some [2] }

/-- Nullish coalescing of a value with itself yields the value. -/
theorem jsNullish_self {α : Type} (a : Option α) : jsNullish a a = a := by
  cases a <;> rfl

/-- Nullish coalescing absorbs a repeated left operand. -/
theorem jsNullish_absorb {α : Type} (a b : Option α) :
    jsNullish a (jsNullish a b) = jsNullish a b := by
  cases a <;> rfl

/-- Radial-list merge with an undefined new list adopts the old list. -/
theorem mergeRadialList_none (x : Option (List ℚ)) : mergeRadialList none x = x := by
  cases x <;> rfl

/-- Merging a symbol with itself is the identity when the symbol carries no
radial and no radius list. -/
theorem mergeSymbols_self (s : NdSymbol) (h1 : s.radials = none)
    (h2 : s.radii = none) : mergeSymbols s s = s := by
  cases s
  simp only [NdSymbol.radials, NdSymbol.radii] at h1 h2
  subst h1 h2
  simp [mergeSymbols, jsNullish_self, mergeRadialList, Nat.or_self]

/-- Merging a symbol into the result of merging it once more is the same as
merging it once, when the symbol carries no radial and no radius list. -/
theorem mergeSymbols_absorb (s old : NdSymbol) (h1 : s.radials = none)
    (h2 : s.radii = none) :
    mergeSymbols s (mergeSymbols s old) = mergeSymbols s old := by
  cases s
  simp only [NdSymbol.radials, NdSymbol.radii] at h1 h2
  subst h1 h2
  simp [mergeSymbols, jsNullish_absorb, mergeRadialList_none,
    ← Nat.lor_assoc, Nat.or_self]

/-- Unfolding of upsertSymbol when the identifier is absent. -/
theorem upsertSymbol_eq_of_none {symbols : List NdSymbol} {symbol : NdSymbol}
    (h : removeFirst symbols symbol.databaseId = none) :
    upsertSymbol symbols symbol = symbols ++ [symbol] := by
  rw [upsertSymbol, h]

/-- Unfolding of upsertSymbol when the identifier is present. -/
theorem upsertSymbol_eq_of_some {symbols : List NdSymbol} {symbol old : NdSymbol}
    {rest : List NdSymbol}
    (h : removeFirst symbols symbol.databaseId = some (old, rest)) :
    upsertSymbol symbols symbol = rest ++ [mergeSymbols symbol old] := by
  rw [upsertSymbol, h]

/-- Failure of removeFirst characterizes the absence of the identifier. -/
theorem removeFirst_eq_none_iff (l : List NdSymbol) (dbid : String) :
    removeFirst l dbid = none ↔ ∀ x ∈ l, x.databaseId ≠ dbid := by
  induction l with
  | nil => simp [removeFirst]
  | cons a l ih =>
    by_cases h : a.databaseId = dbid
    · simp [removeFirst, h]
    · simp [removeFirst, h, Option.map_eq_none, ih]

/-- Appending a matching symbol to a list free of the identifier makes
removeFirst return that symbol and the original list. -/
theorem removeFirst_append_of_none {l : List NdSymbol} {dbid : String}
    (h : removeFirst l dbid = none) {x : NdSymbol} (hx : x.databaseId = dbid) :
    removeFirst (l ++ [x]) dbid = some (x, l) := by
  induction l with
  | nil => simp [removeFirst, hx]
  | cons a l ih =>
    rw [removeFirst_eq_none_iff] at h
    have ha : a.databaseId ≠ dbid := h a (by simp)
    have hl : removeFirst l dbid = none := by
      rw [removeFirst_eq_none_iff]
      intro y hy
      exact h y (by simp [hy])
    simp [removeFirst, ha, ih hl]

/-- Success of removeFirst decomposes the list around the first entry with
the identifier. -/
theorem removeFirst_eq_some_structure :
    ∀ (l : List NdSymbol) (dbid : String) (old : NdSymbol)
      (rest : List NdSymbol), removeFirst l dbid = some (old, rest) →
      ∃ l1 l2, l = l1 ++ old :: l2 ∧ rest = l1 ++ l2
        ∧ (∀ x ∈ l1, x.databaseId ≠ dbid) ∧ old.databaseId = dbid := by
  intro l
  induction l with
  | nil => intro dbid old rest h; simp [removeFirst] at h
  | cons a l ih =>
    intro dbid old rest h
    by_cases ha : a.databaseId = dbid
    · rw [removeFirst, if_pos ha, Option.some.injEq, Prod.mk.injEq] at h
      obtain ⟨rfl, rfl⟩ := h
      exact ⟨[], l, by simp, by simp, by simp, ha⟩
    · rw [removeFirst, if_neg ha] at h
      obtain ⟨⟨o2, r2⟩, hrec, hmap⟩ := Option.map_eq_some'.mp h
      rw [Prod.mk.injEq] at hmap
      obtain ⟨rfl, rfl⟩ := hmap
      obtain ⟨l1, l2, hl, hr, hfree, hid⟩ := ih dbid o2 r2 hrec
      exact ⟨a :: l1, l2, by simp [hl], by simp [hr],
        by simpa [ha] using hfree, hid⟩

/-- After removing the first entry with a given identifier from a list whose
identifiers are pairwise distinct, the identifier is gone from the rest. -/
theorem removeFirst_rest_none_of_nodup {l : List NdSymbol} {dbid : String}
    {old : NdSymbol} {rest : List NdSymbol}
    (h : removeFirst l dbid = some (old, rest))
    (hn : (l.map NdSymbol.databaseId).Nodup) :
    removeFirst rest dbid = none := by
  obtain ⟨l1, l2, rfl, rfl, _, hid⟩ := removeFirst_eq_some_structure l dbid old rest h
  rw [removeFirst_eq_none_iff]
  intro x hx hxid
  rw [List.map_append, List.map_cons, List.nodup_middle, List.nodup_cons,
    ← List.map_append] at hn
  have hmem : x.databaseId ∈ (l1 ++ l2).map NdSymbol.databaseId :=
    List.mem_map_of_mem NdSymbol.databaseId hx
  rw [hxid, ← hid] at hmem
  exact hn.1 hmem

/-- C7: calculateEditArea equals the specification's literal lookup table as
a step function over the six range bands for each of the ARC, ROSE-NAV and
PLAN modes, and in particular at range 10 in ARC mode it returns
(10.5, 3.5, 8.3). -/
theorem calculateEditArea_matches_spec_table :
    (∀ range : ℚ,
      calculateEditArea range .ARC = specEditArea range .ARC
      ∧ calculateEditArea range .ROSE_NAV = specEditArea range .ROSE_NAV
      ∧ calculateEditArea range .PLAN = specEditArea range .PLAN)
    ∧ calculateEditArea 10 .ARC = (10.5, 3.5, 8.3) := by
  refine ⟨fun range => ⟨rfl, rfl, rfl⟩, ?_⟩
  norm_num [calculateEditArea]

/-- C1 counterexample: with 107 accumulated symbols the pass is over the
640 / 6 budget, the dataLimitReached flag is set, but the emitted list still
contains 107 symbols, not the 106 the claim states: the splice delete count
107 - 640/6 = 1/3 truncates to zero, so nothing is dropped. -/
theorem truncation_keeps_107_not_106 :
    (truncateSymbols (List.replicate 107 blankSymbol)).2 = true
    ∧ (truncateSymbols (List.replicate 107 blankSymbol)).1.length = 107
    ∧ (truncateSymbols (List.replicate 107 blankSymbol)).1.length ≠ 106 := by
  have hlen : (List.replicate 107 blankSymbol).length = 107 := by simp
  have hcond : ((List.replicate 107 blankSymbol).length : ℚ) > maxSymbols := by
    rw [hlen, maxSymbols, transportWords, wordsPerSymbol]
    norm_num
  have hdrop :
      jsTrunc (((List.replicate 107 blankSymbol).length : ℚ) - maxSymbols) = 0 := by
    rw [hlen, maxSymbols, transportWords, wordsPerSymbol, jsTrunc,
      if_neg (by norm_num), Int.floor_eq_zero_iff]
    constructor <;> norm_num
  have key : truncateSymbols (List.replicate 107 blankSymbol)
      = (List.replicate 107 blankSymbol, true) := by
    rw [truncateSymbols, if_pos hcond, hdrop]
    simp
  rw [key]
  exact ⟨rfl, by simp, by simp⟩

/-- C1 amended: the overflow test compares the count against the rational
budget 640 / 6, so overflow means at least 107 accumulated symbols; in that
case the emitted list consists of exactly the last 107 symbols of the working
list (the most recently upserted ones) and the flag is set; with at most 106
symbols the full list is emitted and the flag is cleared. -/
theorem truncateSymbols_spec :
    ∀ l : List NdSymbol,
      truncateSymbols l =
        (if l.length ≤ 106 then (l, false) else (l.drop (l.length - 107), true))
      ∧ (truncateSymbols l).1.length = min l.length 107 := by
  intro l
  have key : truncateSymbols l =
      if l.length ≤ 106 then (l, false) else (l.drop (l.length - 107), true) := by
    by_cases h : l.length ≤ 106
    · have h1 : ¬ ((l.length : ℚ) > maxSymbols) := by
        rw [not_lt]
        have hc : (l.length : ℚ) ≤ 106 := by exact_mod_cast h
        have : (106 : ℚ) ≤ maxSymbols := by
          rw [maxSymbols, transportWords, wordsPerSymbol]; norm_num
        linarith
      rw [truncateSymbols, if_neg h1, if_pos h]
    · have h107 : 107 ≤ l.length := by omega
      have hc : (107 : ℚ) ≤ (l.length : ℚ) := by exact_mod_cast h107
      have hmax : maxSymbols < 107 := by
        rw [maxSymbols, transportWords, wordsPerSymbol]; norm_num
      have h2 : (l.length : ℚ) > maxSymbols := by linarith
      have h3 : jsTrunc ((l.length : ℚ) - maxSymbols) = (l.length : ℤ) - 107 := by
        rw [jsTrunc, if_neg (by linarith), Int.floor_eq_iff]
        · rw [maxSymbols, transportWords, wordsPerSymbol]
          push_cast
          constructor <;> linarith
      rw [truncateSymbols, if_pos h2, h3, if_neg h]
      have h4 : ((l.length : ℤ) - 107).toNat = l.length - 107 := by omega
      rw [h4]
  refine ⟨key, ?_⟩
  rw [key]
  by_cases h : l.length ≤ 106
  · rw [if_pos h]
    simp
    omega
  · rw [if_neg h]
    simp [List.length_drop]
    omega

/-- C2 counterexample: upserting a symbol that carries a radial list twice is
not the same as upserting it once, because the merge step concatenates the
radial lists of the merged occurrences; the single visible symbol ends up
with radials [2, 2] after two identical upserts but [2] after one. -/
theorem upsertSymbol_not_idempotent_with_radials :
    upsertSymbol (upsertSymbol [] fixSymbolNew) fixSymbolNew
      ≠ upsertSymbol [] fixSymbolNew
    ∧ (upsertSymbol [] fixSymbolNew).map NdSymbol.radials = [some [2]]
    ∧ (upsertSymbol (upsertSymbol [] fixSymbolNew) fixSymbolNew).map
        NdSymbol.radials = [some [2, 2]] := by
  refine ⟨?_, ?_, ?_⟩ <;> decide

/-- C2 amended: for a working list whose identifiers are pairwise distinct
(the invariant maintained from an empty list) and a symbol carrying no radial
and no radius list, upserting the symbol twice yields exactly the same list
as upserting it once; and whenever an occurrence sharing the databaseId is
merged, the merged entry is appended at the end with its type field the
bitwise OR of the two merged occurrences' type flags. -/
theorem upsertSymbol_idempotent_and_type_or :
    ∀ (symbols : List NdSymbol) (symbol : NdSymbol),
      ((symbols.map NdSymbol.databaseId).Nodup → symbol.radials = none →
        symbol.radii = none →
        upsertSymbol (upsertSymbol symbols symbol) symbol
          = upsertSymbol symbols symbol)
      ∧ (∀ old rest,
          removeFirst symbols symbol.databaseId = some (old, rest) →
          upsertSymbol symbols symbol = rest ++ [mergeSymbols symbol old]
          ∧ (mergeSymbols symbol old).type = symbol.type ||| old.type) := by
  intro L s
  constructor
  · intro hn h1 h2
    cases hrf : removeFirst L s.databaseId with
    | none =>
      rw [upsertSymbol_eq_of_none hrf,
        upsertSymbol_eq_of_some (removeFirst_append_of_none hrf (x := s) rfl),
        mergeSymbols_self s h1 h2]
    | some p =>
      obtain ⟨old, rest⟩ := p
      have hnone := removeFirst_rest_none_of_nodup hrf hn
      rw [upsertSymbol_eq_of_some hrf,
        upsertSymbol_eq_of_some (removeFirst_append_of_none hnone
          (x := mergeSymbols s old) rfl),
        mergeSymbols_absorb s old h1 h2]
  · intro old rest hrf
    exact ⟨upsertSymbol_eq_of_some hrf, rfl⟩

/-- C2 witness: the amended idempotence applied at a concrete empty list and
radial-free symbol, and the type-OR conclusion applied at a concrete merge of
two occurrences of identifier A. -/
theorem upsertSymbol_idempotent_witness :
    upsertSymbol (upsertSymbol [] blankSymbol) blankSymbol
      = upsertSymbol [] blankSymbol
    ∧ (mergeSymbols fixSymbolNew fixSymbolOld).type
        = fixSymbolNew.type ||| fixSymbolOld.type :=
  ⟨(upsertSymbol_idempotent_and_type_or [] blankSymbol).1 (by simp) rfl rfl,
   ((upsertSymbol_idempotent_and_type_or [fixSymbolOld] fixSymbolNew).2
      fixSymbolOld [] (by decide)).2⟩

/-- C10: starting from an empty working list, any sequence of upsertSymbol
calls leaves a list whose databaseId values are pairwise distinct, so the
list handed to truncation and transmission never contains two symbols with
the same identifier. -/
theorem upsertSymbol_fold_nodup :
    ∀ ss : List NdSymbol,
      ((ss.foldl upsertSymbol []).map NdSymbol.databaseId).Nodup := by
  have step : ∀ (L : List NdSymbol) (s : NdSymbol),
      (L.map NdSymbol.databaseId).Nodup →
      ((upsertSymbol L s).map NdSymbol.databaseId).Nodup := by
    intro L s hn
    cases hrf : removeFirst L s.databaseId with
    | none =>
      rw [upsertSymbol, hrf, List.map_append, List.map_singleton]
      rw [List.nodup_append]
      refine ⟨hn, List.nodup_singleton _, ?_⟩
      intro a ha hb
      rw [List.mem_singleton] at hb
      subst hb
      obtain ⟨y, hy, hyid⟩ := List.mem_map.mp ha
      exact (removeFirst_eq_none_iff L s.databaseId).mp hrf y hy hyid
    | some p =>
      obtain ⟨old, rest⟩ := p
      rw [upsertSymbol, hrf, List.map_append, List.map_singleton]
      have hnone := removeFirst_rest_none_of_nodup hrf hn
      have hrestnd : (rest.map NdSymbol.databaseId).Nodup := by
        obtain ⟨l1, l2, rfl, rfl, _, _⟩ :=
          removeFirst_eq_some_structure L s.databaseId old rest hrf
        rw [List.map_append, List.map_cons, List.nodup_middle,
          List.nodup_cons, ← List.map_append] at hn
        exact hn.2
      rw [List.nodup_append]
      refine ⟨hrestnd, List.nodup_singleton _, ?_⟩
      intro a ha hb
      rw [List.mem_singleton] at hb
      subst hb
      obtain ⟨y, hy, hyid⟩ := List.mem_map.mp ha
      exact (removeFirst_eq_none_iff rest s.databaseId).mp hnone y hy hyid
  intro ss
  suffices h : ∀ acc : List NdSymbol, (acc.map NdSymbol.databaseId).Nodup →
      ((ss.foldl upsertSymbol acc).map NdSymbol.databaseId).Nodup by
    exact h [] (by simp)
  induction ss with
  | nil => intro acc h; simpa using h
  | cons a tl ih =>
    intro acc h
    rw [List.foldl_cons]
    exact ih _ (step acc a h)

/-- C3 counterexample: an exception thrown in the EfisState refresh stage
propagates out of GuidanceController.update, because the two updateEfisState
calls at the top of the tick are not wrapped in any try/catch. -/
theorem guidanceUpdate_propagates_efis_refresh_exception :
    guidanceUpdate (fun s =>
      match s with
      | .efisStateRefresh => true
      | _ => false) = .error () := by
  rfl

/-- C3 amended: every stage of the tick after the EfisState refresh is
independently wrapped, so whenever the EfisState refresh does not throw, the
update never propagates an exception and every one of the ten stages runs in
order regardless of which wrapped stages throw; the EfisState refresh itself
is executed outside any try/catch, and an exception there propagates to the
caller and skips the rest of the tick. -/
theorem guidanceUpdate_stage_isolation :
    ∀ throws : Stage → Bool, throws .efisStateRefresh = false →
      guidanceUpdate throws =
        .ok [Stage.efisStateRefresh, .vnavParams, .geometryAndIdent,
          .mrpState, .mapPartlyDisplayed, .lnavDriver, .vnavDriver,
          .pseudoWaypoints, .efisVectors, .taskQueue] := by
  intro throws h
  simp [guidanceUpdate, tickStages, runStages, h]

/-- C3 witness: the amended isolation property applied to the tick in which
no stage throws. -/
theorem guidanceUpdate_stage_isolation_witness :
    guidanceUpdate (fun _ => false) =
      .ok [Stage.efisStateRefresh, .vnavParams, .geometryAndIdent,
        .mrpState, .mapPartlyDisplayed, .lnavDriver, .vnavDriver,
        .pseudoWaypoints, .efisVectors, .taskQueue] :=
  guidanceUpdate_stage_isolation (fun _ => false) rfl

/-- Store contents with every flag clear on both records, as left by init. -/
def storeAllClear : EfisRecId → EfisState := fun _ => initialEfisState

/-- Store contents after the symbol generator marks dataLimitReached for side
L only (writing through the efisStateForSide reference produced by init);
side R's own record is untouched and all legsCulled flags stay false. -/
def storeAfterLeftLimit : EfisRecId → EfisState :=
  setDataLimitReached initEfisStateForSide storeAllClear .L true

/-- C4: after init, efisStateForSide.R aliases the left record (part_000 line
303 assigns this.leftEfisState to it), so when only side L's data limit is
flagged, the map-partly-displayed flag computed for side R is true even
though side R's own record — the one updateEfisState refreshes for R — has
both of its flags clear; the per-side independent computation the claim and
the spec describe would yield false for R. -/
theorem updateMapPartlyDisplayed_right_uses_left_record :
    updateMapPartlyDisplayed initEfisStateForSide storeAfterLeftLimit .R = true
    ∧ mapPartlyDisplayedSpec storeAfterLeftLimit .R = false
    ∧ (storeAfterLeftLimit .rightRec).dataLimitReached = false
    ∧ (storeAfterLeftLimit .rightRec).legsCulled = false
    ∧ initEfisStateForSide .R = .leftRec := by
  refine ⟨?_, ?_, ?_, ?_, ?_⟩ <;> rfl

/-- C5: when the flight-plan slot exists and the plan's version counter
equals the last-seen version recorded for that flight-plan index, a
non-forced tryUpdateFlightPlanGeometry leaves the whole state — both the
geometry map and the last-seen-version map — unchanged. -/
theorem tryUpdateFlightPlanGeometry_noop :
    ∀ (Geom : Type) (env : GeoEnv Geom) (i : Nat) (alt : Bool)
      (st : GCGeomState Geom),
      env.has i = true →
      st.lastFlightPlanVersions i = some (env.version i alt) →
      tryUpdateFlightPlanGeometry env i alt false st = st := by
  intro Geom env i alt st h1 h2
  rw [tryUpdateFlightPlanGeometry]
  simp [h1, h2]

/-- Concrete environment for the no-op witness: every slot exists at version
five. -/
def natGeoEnv : GeoEnv Nat :=
  { has := fun _ => true, version := fun _ _ => 5,
    updateGeom := fun g _ _ => g + 1, createGeom := fun _ _ => 0 }

/-- Concrete state for the no-op witness: version five recorded everywhere,
no geometries. -/
def natGeoState : GCGeomState Nat :=
  { lastFlightPlanVersions := fun _ => some 5,
    flightPlanGeometries := fun _ => none }

/-- C5 witness: the no-op property applied at slot zero of the concrete
environment. -/
theorem tryUpdateFlightPlanGeometry_noop_witness :
    tryUpdateFlightPlanGeometry natGeoEnv 0 false false natGeoState
      = natGeoState :=
  tryUpdateFlightPlanGeometry_noop Nat natGeoEnv 0 false natGeoState rfl rfl

/-- C6: when the flight-plan provider reports no plan at the slot index,
tryUpdateFlightPlanGeometry leaves no geometry under that (index, alternate)
key: any cached geometry is evicted. -/
theorem tryUpdateFlightPlanGeometry_evicts :
    ∀ (Geom : Type) (env : GeoEnv Geom) (i : Nat) (alt force : Bool)
      (st : GCGeomState Geom),
      env.has i = false →
      (tryUpdateFlightPlanGeometry env i alt force st).flightPlanGeometries
        ((if alt then 100 else 0) + i) = none := by
  intro Geom env i alt force st h
  rw [tryUpdateFlightPlanGeometry]
  simp [h]

/-- Concrete environment for the eviction witness: no slot exists. -/
def natGeoEnvAbsent : GeoEnv Nat :=
  { has := fun _ => false, version := fun _ _ => 0,
    updateGeom := fun g _ _ => g, createGeom := fun _ _ => 0 }

/-- Concrete state for the eviction witness: a cached geometry under every
key. -/
def natGeoStateFull : GCGeomState Nat :=
  { lastFlightPlanVersions := fun _ => none,
    flightPlanGeometries := fun _ => some 7 }

/-- C6 witness: the eviction property applied at slot three of the concrete
environment that has no plans, starting from a state caching a geometry. -/
theorem tryUpdateFlightPlanGeometry_evicts_witness :
    (tryUpdateFlightPlanGeometry natGeoEnvAbsent 3 false false
      natGeoStateFull).flightPlanGeometries 3 = none := by
  simpa using
    tryUpdateFlightPlanGeometry_evicts Nat natGeoEnvAbsent 3 false false
      natGeoStateFull rfl

/-- Modes with PLAN on the left side and ARC on the right side. -/
def planModeOnL : Side → EfisNdMode := fun s =>
  match s with
  | .L => .PLAN
  | .R => .ARC

/-- C9 counterexample: with PLAN selected on side L, no resolvable plan
centre, and side R in ARC mode with pending changes, the update sends side L
an empty list and then returns, so side R — whose pass the claim says is
unaffected — receives no transmission at all in that invocation. -/
theorem efisSymbolsUpdate_plan_abort_kills_other_side :
    efisSymbolsUpdate (fun _ => false) planModeOnL false (fun _ => [blankSymbol])
      = [(Side.L, [])]
    ∧ efisSymbolsUpdate (fun _ => false) planModeOnL false (fun _ => [blankSymbol])
      ≠ [(Side.L, []), (Side.R, [blankSymbol])] := by
  exact ⟨rfl, by decide⟩

/-- C9 amended: when PLAN mode without a resolvable plan centre is hit on a
side, that side is sent an empty symbol list and the whole update invocation
returns immediately: if it is hit on side L, side R is never processed; if
side L completes normally and it is hit on side R, side L's transmission has
already happened and only side R gets the empty list. -/
theorem efisSymbolsUpdate_plan_abort :
    ∀ (skip : Side → Bool) (mode : Side → EfisNdMode)
      (syms : Side → List NdSymbol),
      (skip .L = false → mode .L = .PLAN →
        efisSymbolsUpdate skip mode false syms = [(Side.L, [])])
      ∧ (skip .L = false → mode .L ≠ .PLAN → skip .R = false →
          mode .R = .PLAN →
          efisSymbolsUpdate skip mode false syms
            = [(Side.L, syms Side.L), (Side.R, [])]) := by
  intro skip mode syms
  constructor
  · intro h1 h2
    simp [efisSymbolsUpdate, efisSymbolsSidePass, h1, h2]
  · intro h1 h2 h3 h4
    simp [efisSymbolsUpdate, efisSymbolsSidePass, h1, h2, h3, h4]

/-- C9 witness: the abort property applied with PLAN selected on side L and
nothing skipped. -/
theorem efisSymbolsUpdate_plan_abort_witness :
    efisSymbolsUpdate (fun _ => false) (fun _ => .PLAN) false (fun _ => [])
      = [(Side.L, [])] :=
  (efisSymbolsUpdate_plan_abort (fun _ => false) (fun _ => .PLAN)
    (fun _ => [])).1 rfl rfl

/-- The origin coordinate, used for concrete edit-area instances. -/
def originCoord : Coordinates := { lat := 0, long := 0 }

/-- A geodesic distance function that reports eleven nautical miles between
any two points. -/
def constDist11 : Coordinates → Coordinates → ℝ := fun _ _ => 11

/-- A geodesic distance function that reports zero between any two points. -/
def constDist0 : Coordinates → Coordinates → ℝ := fun _ _ => 0

/-- A geodesic bearing function that reports zero degrees everywhere. -/
def constBearing0 : Coordinates → Coordinates → ℝ := fun _ _ => 0

/-- C8 counterexample: when no plan-centre termination was resolved, the
withinEditArea test returns true for every candidate — here a candidate
eleven nautical miles dead ahead in ARC mode at range ten, whose along-track
offset of eleven exceeds the ahead bound of 10.5, so the inclusion-iff-
within-bounds characterization of the claim fails. -/
theorem withinEditArea_true_without_termination :
    withinEditArea constDist11 constBearing0 .ARC none originCoord 0
      10.5 3.5 8.3 originCoord
    ∧ ¬ (|editAreaDx (constDist11 originCoord originCoord)
            (editAreaBearing .ARC 0 (constBearing0 originCoord originCoord))|
          < 8.3
        ∧ editAreaDy (constDist11 originCoord originCoord)
            (editAreaBearing .ARC 0 (constBearing0 originCoord originCoord))
          > -3.5
        ∧ editAreaDy (constDist11 originCoord originCoord)
            (editAreaBearing .ARC 0 (constBearing0 originCoord originCoord))
          < 10.5) := by
  constructor
  · simp [withinEditArea]
  · intro hcon
    have hb : editAreaBearing .ARC 0 (constBearing0 originCoord originCoord)
        = 0 := by
      simp [editAreaBearing, constBearing0, clampAngle]
    rw [hb] at hcon
    have hdy : editAreaDy (constDist11 originCoord originCoord) 0 = 11 := by
      simp [editAreaDy, constDist11]
    rw [hdy] at hcon
    norm_num at hcon

/-- C8 amended: when a plan-centre termination was resolved, a candidate is
within the edit area exactly when the cross-track offset magnitude is below
the beside bound and the along-track offset lies strictly between minus the
behind bound and the ahead bound, the offsets being computed from the
distance and bearing to the reference point (aircraft position outside PLAN
mode, plan centre in PLAN mode, bearing normalized against true heading
outside PLAN mode); and a candidate at the reference point itself, which the
geodesic library places at distance zero, is within the edit area whenever
all three bounds are positive. -/
theorem withinEditArea_characterization :
    ∀ (distanceTo bearingTo : Coordinates → Coordinates → ℝ)
      (mode : EfisNdMode) (t ppos : Coordinates)
      (trueHeading editAhead editBehind editBeside : ℝ) (ll : Coordinates),
      (withinEditArea distanceTo bearingTo mode (some t) ppos trueHeading
          editAhead editBehind editBeside ll ↔
        (|editAreaDx (distanceTo (editAreaReference mode t ppos) ll)
            (editAreaBearing mode trueHeading
              (bearingTo (editAreaReference mode t ppos) ll))| < editBeside
          ∧ editAreaDy (distanceTo (editAreaReference mode t ppos) ll)
              (editAreaBearing mode trueHeading
                (bearingTo (editAreaReference mode t ppos) ll)) > -editBehind
          ∧ editAreaDy (distanceTo (editAreaReference mode t ppos) ll)
              (editAreaBearing mode trueHeading
                (bearingTo (editAreaReference mode t ppos) ll)) < editAhead))
      ∧ (distanceTo (editAreaReference mode t ppos)
            (editAreaReference mode t ppos) = 0 →
          0 < editAhead → 0 < editBehind → 0 < editBeside →
          withinEditArea distanceTo bearingTo mode (some t) ppos trueHeading
            editAhead editBehind editBeside
            (editAreaReference mode t ppos)) := by
  intro distanceTo bearingTo mode t ppos trueHeading editAhead editBehind
    editBeside ll
  constructor
  · exact Iff.rfl
  · intro h0 ha hb hc
    simp only [withinEditArea, editAreaDx, editAreaDy, h0, zero_mul,
      abs_zero]
    exact ⟨hc, by linarith, ha⟩

/-- C8 witness: the characterization applied at a concrete zero-distance
geodesic and unit bounds, placing the reference point inside the area. -/
theorem withinEditArea_characterization_witness :
    withinEditArea constDist0 constBearing0 .ARC (some originCoord)
      originCoord 0 1 1 1 (editAreaReference .ARC originCoord originCoord) :=
  (withinEditArea_characterization constDist0 constBearing0 .ARC originCoord
    originCoord 0 1 1 1
    (editAreaReference .ARC originCoord originCoord)).2 rfl
    one_pos one_pos one_pos

end Aircraft
